import Mathlib

/-!
Verification development for the Eurostat Energy AI Platform core.

This file shallowly embeds the two algorithmic cores of the repository:

* `src/etl/transform.py` — the flat-index decoder `unravel_index`, the
  indicator-dimension detector and the cube-to-records transformer
  `transform_dataset`;
* `src/ml/forecast_utils.py` — the series extractor `_get_series`, the
  supervised feature builder `_make_supervised`, the two forecasters
  `_train_xgb` / `_train_es` and the selector `run_forecast`.

Numeric values are modelled as rationals (ℚ); the opaque fitted models
(XGBoost's prediction function, statsmodels' exponential-smoothing
forecast) are taken as explicit function parameters, so every theorem
below quantifies over every possible fitted model.  Standard deviations
are represented by their squares (variances): the model parameter absorbs
the square root, which is injective on nonnegative inputs, so no
generality is lost while keeping every definition executable over ℚ.
-/

namespace EurostatSpec

/-! ## Index Decoder (`unravel_index`, src/etl/transform.py lines 16-32) -/

/-- Loop body of `unravel_index`, applied to the already-reversed size
list: `coords.append(flat_index % size); flat_index //= size`. -/
def unravelAux : ℕ → List ℕ → List ℕ
  | _, [] => []
  | f, s :: rest => f % s :: unravelAux (f / s) rest

/-- `unravel_index(flat_index, sizes)`: iterate over `reversed(sizes)`,
collect `flat_index % size` while integer-dividing, then reverse the
collected coordinates back into forward dimension order. -/
def unravel_index (flatIndex : ℕ) (sizes : List ℕ) : List ℕ :=
  (unravelAux flatIndex sizes.reverse).reverse

/-- Re-encoding formula from the spec (section 8, "Decoder round-trip"):
`sum(coord[d] * product(S[d+1:]) for d in dims)`. -/
def reencode : List ℕ → List ℕ → ℕ
  | c :: cs, _ :: ss => c * ss.prod + reencode cs ss
  | _, _ => 0

/-- Little-endian companion of `reencode`, matching the order in which
`unravelAux` produces digits. -/
def ravelLE : List ℕ → List ℕ → ℕ
  | c :: cs, s :: ss => c + s * ravelLE cs ss
  | _, _ => 0

theorem unravelAux_length (f : ℕ) (ss : List ℕ) :
    (unravelAux f ss).length = ss.length := by
  induction ss generalizing f with
  | nil => rfl
  | cons s rest ih => simp [unravelAux, ih]

theorem ravelLE_unravelAux (f : ℕ) (ss : List ℕ) :
    ravelLE (unravelAux f ss) ss = f % ss.prod := by
  induction ss generalizing f with
  | nil => simp [unravelAux, ravelLE, Nat.mod_one]
  | cons s rest ih =>
      simp only [unravelAux, ravelLE, ih (f / s), List.prod_cons]
      exact (Nat.mod_mul).symm

theorem unravelAux_mod (f : ℕ) (ss : List ℕ) :
    unravelAux (f % ss.prod) ss = unravelAux f ss := by
  induction ss generalizing f with
  | nil => rfl
  | cons s rest ih =>
      simp only [unravelAux, List.prod_cons]
      rw [Nat.mod_mul_right_mod, Nat.mod_mul_right_div_self, ih]

theorem unravelAux_forall₂ (f : ℕ) (ss : List ℕ) (hpos : ∀ s ∈ ss, 0 < s) :
    List.Forall₂ (· < ·) (unravelAux f ss) ss := by
  induction ss generalizing f with
  | nil => exact List.Forall₂.nil
  | cons s rest ih =>
      exact List.Forall₂.cons
        (Nat.mod_lt f (hpos s (List.mem_cons_self s rest)))
        (ih (f / s) (fun x hx => hpos x (List.mem_cons_of_mem s hx)))

theorem ravelLE_append (xs : List ℕ) (c s : ℕ) :
    ∀ ys : List ℕ, xs.length = ys.length →
      ravelLE (xs ++ [c]) (ys ++ [s]) = ravelLE xs ys + ys.prod * c := by
  induction xs with
  | nil =>
      intro ys h
      cases ys with
      | nil => simp [ravelLE]
      | cons y ys => simp at h
  | cons x xs ih =>
      intro ys h
      cases ys with
      | nil => simp at h
      | cons y ys =>
          simp only [List.cons_append, ravelLE, List.prod_cons,
            List.append_eq, ih ys (by simpa using h)]
          ring

theorem reencode_eq_ravelLE (cs : List ℕ) :
    ∀ ss : List ℕ, cs.length = ss.length →
      reencode cs ss = ravelLE cs.reverse ss.reverse := by
  induction cs with
  | nil =>
      intro ss h
      cases ss with
      | nil => rfl
      | cons s ss => simp at h
  | cons c cs ih =>
      intro ss h
      cases ss with
      | nil => simp at h
      | cons s ss =>
          have hlen : cs.reverse.length = ss.reverse.length := by
            simpa using h
          simp only [reencode, List.reverse_cons,
            ravelLE_append cs.reverse c s ss.reverse hlen,
            ih ss (by simpa using h), List.prod_reverse]
          ring

/-- C2: mixed-radix round-trip.  For positive sizes and an in-range flat
index, re-encoding the decoded coordinate list via
`sum(coord[d] * product(S[d+1:]))` reproduces the flat index exactly. -/
theorem unravel_index_roundtrip (sizes : List ℕ) (_hpos : ∀ s ∈ sizes, 0 < s)
    (i : ℕ) (hi : i < sizes.prod) :
    reencode (unravel_index i sizes) sizes = i := by
  have hlen : (unravel_index i sizes).length = sizes.length := by
    simp [unravel_index, unravelAux_length]
  rw [reencode_eq_ravelLE _ _ hlen, unravel_index, List.reverse_reverse,
    ravelLE_unravelAux, List.prod_reverse, Nat.mod_eq_of_lt hi]

/-- C2 witness: concrete round-trip at sizes [2,3,4], flat index 17. -/
theorem unravel_index_roundtrip_witness :
    (∀ s ∈ [2, 3, 4], 0 < s) ∧ 17 < ([2, 3, 4] : List ℕ).prod ∧
      reencode (unravel_index 17 [2, 3, 4]) [2, 3, 4] = 17 :=
  ⟨by decide, by decide,
    unravel_index_roundtrip [2, 3, 4] (by decide) 17 (by decide)⟩

/-- C9: the decoder is total on all nonnegative flat indices.  It always
returns one coordinate per size, each coordinate lies below its size, and
for out-of-range indices the excess high-order part is silently discarded
(decoding `i` and decoding `i mod product(sizes)` coincide). -/
theorem unravel_index_total (sizes : List ℕ) (_hne : sizes ≠ [])
    (hpos : ∀ s ∈ sizes, 0 < s) (i : ℕ) :
    (unravel_index i sizes).length = sizes.length ∧
      List.Forall₂ (· < ·) (unravel_index i sizes) sizes ∧
      unravel_index i sizes = unravel_index (i % sizes.prod) sizes := by
  refine ⟨by simp [unravel_index, unravelAux_length], ?_, ?_⟩
  · have h := unravelAux_forall₂ i sizes.reverse
      (fun s hs => hpos s (by simpa using hs))
    simpa [unravel_index] using List.rel_reverse h
  · rw [unravel_index, unravel_index, ← List.prod_reverse,
      unravelAux_mod]

/-- C9 witness: sizes [2,3,4] at the out-of-range flat index 100. -/
theorem unravel_index_total_witness :
    ([2, 3, 4] : List ℕ) ≠ [] ∧ (∀ s ∈ [2, 3, 4], 0 < s) ∧
      ((unravel_index 100 [2, 3, 4]).length = ([2, 3, 4] : List ℕ).length ∧
        List.Forall₂ (· < ·) (unravel_index 100 [2, 3, 4]) [2, 3, 4] ∧
        unravel_index 100 [2, 3, 4] = unravel_index (100 % ([2, 3, 4] : List ℕ).prod) [2, 3, 4]) :=
  ⟨by decide, by decide,
    unravel_index_total [2, 3, 4] (by decide) (by decide) 100⟩

/-! ## Cube-to-Records Transformer (`transform_dataset`, src/etl/transform.py)

A dimension's `category` block carries an ordered label mapping and an
ordered `index` mapping; the code only ever uses the key ORDER of the
`index` mapping (`list(indexes[i].keys())[idx[i]]`), so we embed it as the
ordered list of category codes.  Raw cell values are `Option ℚ`: `none`
models a non-numeric sentinel such as ":" whose `float()` parse fails and
which the loop silently skips.  Python exceptions are modelled by
`Except PyExn`; `load_timestamp` (a wall-clock side effect) and NaN floats
are outside the embedding. -/

structure DimData where
  labels : List (String × String)
  catIndex : List String
deriving DecidableEq

structure Cube where
  dimension : List (String × DimData)
  id : Option (List String)
  size : List ℕ
  value : List (ℕ × Option ℚ)
deriving DecidableEq

inductive PyExn
  | indexError
  | keyError
  | valueError
deriving DecidableEq

structure Record where
  dataset_code : String
  country_code : Option String
  country_name : Option String
  indicator_code : String
  indicator_label : Option String
  unit_code : Option String
  unit_label : Option String
  time : Option String
  value : ℚ
deriving DecidableEq

/-- Python `list[i]`: out-of-bounds access raises IndexError. -/
def listGetE {α : Type} (l : List α) (i : ℕ) : Except PyExn α :=
  match l.get? i with
  | some x => Except.ok x
  | none => Except.error PyExn.indexError

/-- Python `dict.get` on a dict built by inserting pairs in list order:
a later duplicate key overwrites an earlier one, so look up from the
right. -/
def dictGet {α : Type} (m : List (String × α)) (k : String) : Option α :=
  m.reverse.lookup k

/-- `detect_indicator_dimension`: first dimension whose label keys
contain any of the target indicators (lines 5-14). -/
def detect_indicator_dimension (dims : List (String × DimData))
    (indicators : List String) : Option String :=
  dims.findSome? (fun p =>
    if indicators.any (fun ind => (p.2.labels.map Prod.fst).contains ind)
    then some p.1 else none)

/-- `keys = [list(indexes[i].keys())[idx[i]] for i in range(len(idx))]`
(line 70). -/
def entryKeys (indexes : List (List String)) (idx : List ℕ) :
    Except PyExn (List String) :=
  (List.range idx.length).mapM (fun i => do
    let ind ← listGetE indexes i
    let ci ← listGetE idx i
    listGetE ind ci)

/-- `dim_map = {dim_ids[i]: keys[i] for i in range(len(dim_ids))}`
(line 71): indexing `keys[i]` raises IndexError when `keys` is shorter
than `dim_ids`. -/
def entryDimMap (dimIds : List String) (keys : List String) :
    Except PyExn (List (String × String)) :=
  (List.range dimIds.length).mapM (fun i => do
    let d ← listGetE dimIds i
    let k ← listGetE keys i
    Except.ok (d, k))

/-- `labels.get("geo", {}).get(dim_map.get("geo"), dim_map.get("geo"))`
(line 80): the display name falls back to the country code itself when
the geo label mapping has no entry for it; looking up a missing
(`None`) code yields the `None` default. -/
def country_name_of (geoLabels : List (String × String))
    (code : Option String) : Option String :=
  match code with
  | none => none
  | some c => some (((geoLabels.reverse).lookup c).getD c)

/-- Observation-record assembly for one surviving entry (lines 77-87). -/
def buildRecord (datasetCode : String)
    (labels : List (String × List (String × String)))
    (indicatorDim : String) (dimMap : List (String × String))
    (indicator : String) (q : ℚ) : Record :=
  let geoCode := dictGet dimMap "geo"
  { dataset_code := datasetCode
    country_code := geoCode
    country_name := country_name_of ((dictGet labels "geo").getD []) geoCode
    indicator_code := indicator
    indicator_label := (((dictGet labels indicatorDim).getD []).reverse).lookup indicator
    unit_code := dictGet dimMap "unit"
    unit_label := (dictGet dimMap "unit").bind
      (fun u => (((dictGet labels "unit").getD []).reverse).lookup u)
    time := dictGet dimMap "time"
    value := q }

/-- Outcome of the per-entry loop body: silently skipped, kept as a
record, or an uncaught Python exception. -/
inductive EntryOut
  | skip
  | keep (r : Record)
  | err (e : PyExn)

/-- One iteration of the `for flat_index_str, val in value_data.items()`
loop (lines 56-87). -/
def process_entry (datasetCode : String)
    (labels : List (String × List (String × String)))
    (dimIds : List String) (indexes : List (List String)) (sizes : List ℕ)
    (indicatorDim : String) (targets : List String)
    (fi : ℕ) (raw : Option ℚ) : EntryOut :=
  match raw with
  | none => EntryOut.skip
  | some q =>
    match entryKeys indexes (unravel_index fi sizes) with
    | Except.error e => EntryOut.err e
    | Except.ok keys =>
      match entryDimMap dimIds keys with
      | Except.error e => EntryOut.err e
      | Except.ok dimMap =>
        match dictGet dimMap indicatorDim with
        | none => EntryOut.skip
        | some ind =>
          if targets.contains ind then
            EntryOut.keep (buildRecord datasetCode labels indicatorDim dimMap ind q)
          else EntryOut.skip

/-- The whole entry loop; an exception in any iteration aborts the
transform. -/
def assemble_entries (datasetCode : String)
    (labels : List (String × List (String × String)))
    (dimIds : List String) (indexes : List (List String)) (sizes : List ℕ)
    (indicatorDim : String) (targets : List String) :
    List (ℕ × Option ℚ) → Except PyExn (List Record)
  | [] => Except.ok []
  | (fi, raw) :: rest =>
    match process_entry datasetCode labels dimIds indexes sizes indicatorDim targets fi raw with
    | EntryOut.err e => Except.error e
    | EntryOut.skip =>
        assemble_entries datasetCode labels dimIds indexes sizes indicatorDim targets rest
    | EntryOut.keep r =>
        match assemble_entries datasetCode labels dimIds indexes sizes indicatorDim targets rest with
        | Except.error e => Except.error e
        | Except.ok tail => Except.ok (r :: tail)

/-- The `dropna` required columns (line 104): `value` is always a parsed
rational here and `indicator_code` always a member of the allow-list, so
only the four optional fields can be missing. -/
def required_present (r : Record) : Bool :=
  r.country_code.isSome && r.country_name.isSome &&
    r.indicator_label.isSome && r.time.isSome

/-- Cleaning (lines 98-108): drop exact duplicates keeping the first
occurrence, then drop rows missing a required field. -/
def clean_records (recs : List Record) : List Record :=
  (recs.eraseDups).filter required_present

/-- Year-format validation modelling `pd.to_datetime(df["time"],
format="%Y")` (line 111): every time string must be a nonempty digit
string, else the call raises for the whole dataset. -/
def is_year_string (s : String) : Bool :=
  !s.data.isEmpty && s.data.all Char.isDigit

def times_parse (recs : List Record) : Bool :=
  recs.all (fun r =>
    match r.time with
    | some s => is_year_string s
    | none => false)

/-- `transform_dataset` (lines 34-117), with the DataFrame pipeline
expressed over lists.  The datetime conversion is modelled as
validation: the record keeps its year string. -/
def transform_dataset (datasetCode : String) (cube : Cube)
    (targets : List String) : Except PyExn (List Record) := do
  let dimIds := cube.id.getD (cube.dimension.map Prod.fst)
  let sizes := cube.size
  let labels := cube.dimension.map (fun p => (p.1, p.2.labels))
  let indexes ← dimIds.mapM (fun d =>
    match cube.dimension.lookup d with
    | some info => Except.ok info.catIndex
    | none => Except.error PyExn.keyError)
  match detect_indicator_dimension cube.dimension targets with
  | none => Except.ok []
  | some indDim => do
      let recs ← assemble_entries datasetCode labels dimIds indexes sizes indDim targets cube.value
      if recs = [] then
        Except.ok []
      else
        let cleaned := clean_records recs
        if times_parse cleaned then Except.ok cleaned
        else Except.error PyExn.valueError

/-- Test cube whose only populated cell has flat index 4 while
`product(sizes) = 1 * 2 * 2 = 4`, i.e. the index is out of range. -/
def oob_cube : Cube :=
  { dimension :=
      [("indic", ⟨[("IND1", "Indicator one")], ["IND1"]⟩),
       ("geo", ⟨[("AT", "Austria"), ("BE", "Belgium")], ["AT", "BE"]⟩),
       ("time", ⟨[("2020", "Year 2020"), ("2021", "Year 2021")], ["2020", "2021"]⟩)],
    id := some ["indic", "geo", "time"],
    size := [1, 2, 2],
    value := [(4, some 5)] }

/-- The record the transformer silently fabricates for flat index 4. -/
def oob_record : Record :=
  { dataset_code := "nrg_oob", country_code := some "AT",
    country_name := some "Austria", indicator_code := "IND1",
    indicator_label := some "Indicator one", unit_code := none,
    unit_label := none, time := some "2020", value := 5 }

/-- C3 evidence: an out-of-range flat index (4 ≥ product([1,2,2]) = 4) is
NOT treated as a hard data-integrity failure.  The decoder silently
discards the excess high-order part — decoding 4 produces the same
coordinates as decoding 0 — and the transformer happily assembles a
full observation record from the wrapped coordinates. -/
theorem transform_dataset_out_of_range_silent :
    ([1, 2, 2] : List ℕ).prod ≤ 4 ∧
      unravel_index 4 [1, 2, 2] = unravel_index 0 [1, 2, 2] ∧
      transform_dataset "nrg_oob" oob_cube ["IND1"] = Except.ok [oob_record] :=
  ⟨by decide, by decide, rfl⟩

/-- Structurally invalid cube: `id` lists two dimensions but `size` only
one, violating the `len(dim_ids) == len(sizes)` invariant. -/
def mismatch_cube : Cube :=
  { dimension :=
      [("indic", ⟨[("IND1", "Indicator one")], ["IND1"]⟩),
       ("geo", ⟨[("AT", "Austria")], ["AT"]⟩)],
    id := some ["indic", "geo"],
    size := [1],
    value := [] }

/-- The same invalid cube with one populated cell. -/
def mismatch_cube_populated : Cube :=
  { mismatch_cube with value := [(0, some 3)] }

/-- C4 evidence: the transformer never checks `len(id) == len(size)`.
With an empty sparse map the mismatched cube is processed to a normal
empty result (no error of any kind); with a populated cell it dies with
a bare IndexError from list indexing, not a typed transform error
identifying the dataset and the offending field. -/
theorem transform_dataset_size_mismatch_unchecked :
    (mismatch_cube.id.getD []).length ≠ mismatch_cube.size.length ∧
      transform_dataset "nrg_mm" mismatch_cube ["IND1"] = Except.ok [] ∧
      transform_dataset "nrg_mm" mismatch_cube_populated ["IND1"] =
        Except.error PyExn.indexError :=
  ⟨by decide, rfl, rfl⟩

theorem country_name_of_none_iff (gl : List (String × String))
    (c : Option String) : country_name_of gl c = none ↔ c = none := by
  cases c <;> simp [country_name_of]

theorem buildRecord_name_iff (dc : String)
    (labels : List (String × List (String × String))) (indDim : String)
    (dimMap : List (String × String)) (ind : String) (q : ℚ) :
    ((buildRecord dc labels indDim dimMap ind q).country_name = none ↔
      (buildRecord dc labels indDim dimMap ind q).country_code = none) := by
  simp only [buildRecord]
  exact country_name_of_none_iff _ _

theorem required_present_of_name_iff (r : Record)
    (h : r.country_name = none ↔ r.country_code = none) :
    required_present r =
      (r.country_code.isSome && r.indicator_label.isSome && r.time.isSome) := by
  unfold required_present
  have hs : r.country_name.isSome = r.country_code.isSome := by
    cases hn : r.country_name <;> cases hc : r.country_code <;> simp_all
  rw [hs]
  cases r.country_code.isSome <;> simp

theorem process_entry_keep_name_iff (dc : String)
    (labels : List (String × List (String × String)))
    (dimIds : List String) (indexes : List (List String)) (sizes : List ℕ)
    (indDim : String) (targets : List String) (fi : ℕ) (raw : Option ℚ)
    (r : Record)
    (h : process_entry dc labels dimIds indexes sizes indDim targets fi raw =
      EntryOut.keep r) :
    (r.country_name = none ↔ r.country_code = none) := by
  unfold process_entry at h
  split at h
  · cases h
  · split at h
    · cases h
    · split at h
      · cases h
      · split at h
        · cases h
        · split at h
          · cases h
            exact buildRecord_name_iff _ _ _ _ _ _
          · cases h

/-- C10: every record assembled by the transformer has its entity display
name falling back to the entity code, so `country_name` is null exactly
when `country_code` is; consequently the cleaning predicate degenerates
to the code/label/time checks and a record is never dropped solely
because its geo label is missing. -/
theorem assemble_entries_geo_fallback (dc : String)
    (labels : List (String × List (String × String)))
    (dimIds : List String) (indexes : List (List String)) (sizes : List ℕ)
    (indDim : String) (targets : List String)
    (entries : List (ℕ × Option ℚ)) (recs : List Record)
    (h : assemble_entries dc labels dimIds indexes sizes indDim targets entries =
      Except.ok recs) :
    ∀ r ∈ recs,
      (r.country_name = none ↔ r.country_code = none) ∧
        required_present r =
          (r.country_code.isSome && r.indicator_label.isSome && r.time.isSome) := by
  induction entries generalizing recs with
  | nil =>
      intro r hr
      simp only [assemble_entries] at h
      cases h
      cases hr
  | cons e rest ih =>
      intro r hr
      obtain ⟨fi, raw⟩ := e
      simp only [assemble_entries] at h
      cases hpe : process_entry dc labels dimIds indexes sizes indDim targets fi raw with
      | err e' => rw [hpe] at h; cases h
      | skip => rw [hpe] at h; exact ih recs h r hr
      | keep r' =>
          rw [hpe] at h
          cases hrest : assemble_entries dc labels dimIds indexes sizes indDim targets rest with
          | error e' => rw [hrest] at h; cases h
          | ok tail =>
              rw [hrest] at h
              cases h
              rcases List.mem_cons.mp hr with h' | h'
              · subst h'
                have hname := process_entry_keep_name_iff dc labels dimIds
                  indexes sizes indDim targets fi raw r hpe
                exact ⟨hname, required_present_of_name_iff r hname⟩
              · exact ih tail hrest r h'

/-- Record produced for the witness cube whose geo dimension carries no
label for category code "BE": the display name falls back to the code. -/
def fallback_record : Record :=
  { dataset_code := "ds", country_code := some "BE",
    country_name := some "BE", indicator_code := "IND1",
    indicator_label := some "Indicator one", unit_code := none,
    unit_label := none, time := some "2020", value := 7 }

/-- C10 witness: a concrete assembly where the geo label mapping lacks
the decoded code "BE", so the name falls back to the code and the
record's name field is non-null together with its code field. -/
theorem assemble_entries_geo_fallback_witness :
    assemble_entries "ds"
        [("indic", [("IND1", "Indicator one")]), ("geo", [("AT", "Austria")]),
          ("time", [("2020", "Year 2020")])]
        ["indic", "geo", "time"] [["IND1"], ["AT", "BE"], ["2020"]] [1, 2, 1]
        "indic" ["IND1"] [(1, some 7)] = Except.ok [fallback_record] ∧
      ((fallback_record.country_name = none ↔ fallback_record.country_code = none) ∧
        required_present fallback_record =
          (fallback_record.country_code.isSome &&
            fallback_record.indicator_label.isSome && fallback_record.time.isSome)) :=
  ⟨rfl,
    assemble_entries_geo_fallback "ds"
      [("indic", [("IND1", "Indicator one")]), ("geo", [("AT", "Austria")]),
        ("time", [("2020", "Year 2020")])]
      ["indic", "geo", "time"] [["IND1"], ["AT", "BE"], ["2020"]] [1, 2, 1]
      "indic" ["IND1"] [(1, some 7)] [fallback_record] rfl
      fallback_record (List.mem_cons_self _ _)⟩

/-! ## Forecasting engine (src/ml/forecast_utils.py)

The opaque fitted models are parameters: `model : List ℚ → ℚ` is the
fitted XGBoost regressor applied to one feature row in training-column
order `[year, lag1, lag2, lag3, roll_mean_3, roll_std_3]`, and
`esModel : List (ℤ × ℚ) → ℕ → List ℚ` is the fitted exponential smoother
(series it was fit on, steps to forecast).  Standard deviations appear
through their squares (pandas `rolling(3).std()` is the sample variance
with divisor 2; `np.std` the population variance): since the square root
is injective on nonnegatives, precomposing the opaque model with it loses
no generality.  Each theorem quantifies over all such models. -/

structure SRow where
  geo : String
  indicator : String
  year : ℤ
  value : ℚ
deriving DecidableEq

def qmean (l : List ℚ) : ℚ := l.sum / (l.length : ℚ)

def yearLE (a b : ℤ) : Prop := a ≤ b

instance : DecidableRel yearLE := fun a b => inferInstanceAs (Decidable (a ≤ b))

/-- `_get_series` (lines 13-27): filter to the (country, indicator) pair,
take the year of each row, group duplicate years by mean, sort the index
ascending.  `pd.to_datetime(time).dt.year` is modelled by `SRow.year`
holding the parsed year directly. -/
def get_series (data : List SRow) (country indicator : String) :
    List (ℤ × ℚ) :=
  let df := data.filter (fun r => r.geo == country && r.indicator == indicator)
  let years := List.insertionSort yearLE (df.map (fun r => r.year)).dedup
  years.map (fun y =>
    (y, qmean ((df.filter (fun r => r.year == y)).map (fun r => r.value))))

structure FeatRow where
  year : ℤ
  value : ℚ
  lag1 : ℚ
  lag2 : ℚ
  lag3 : ℚ
  roll_mean_3 : ℚ
  roll_var_3 : ℚ
deriving DecidableEq

/-- Sample variance (divisor `window - 1 = 2`) of a 3-value window,
representing the square of pandas `rolling(window=3).std()`. -/
def sampleVar3 (a b c : ℚ) : ℚ :=
  let m := (a + b + c) / 3
  ((a - m) ^ 2 + (b - m) ^ 2 + (c - m) ^ 2) / 2

/-- Rows of the supervised table in order.  The walk carries the three
previous raw values `a, b, c` (positions i-3, i-2, i-1), exactly the
rows that survive `dropna`: with `n_lags = 3` the shifted lag columns
are null for the first three rows and the rolling columns for the first
two, so row i is retained iff i ≥ 3. -/
def supervisedRows : ℚ → ℚ → ℚ → List (ℤ × ℚ) → List FeatRow
  | _, _, _, [] => []
  | a, b, c, (y, v) :: tl =>
    { year := y, value := v, lag1 := c, lag2 := b, lag3 := a,
      roll_mean_3 := (b + c + v) / 3, roll_var_3 := sampleVar3 b c v } ::
      supervisedRows b c v tl

/-- `_make_supervised` (lines 30-51) after `dropna`. -/
def make_supervised (series : List (ℤ × ℚ)) : List FeatRow :=
  match series with
  | (_, a) :: (_, b) :: (_, c) :: rest => supervisedRows a b c rest
  | _ => []

/-- Feature vector in training-column order, `roll_std_3` represented by
its square. -/
def featVec (r : FeatRow) : List ℚ :=
  [(r.year : ℚ), r.lag1, r.lag2, r.lag3, r.roll_mean_3, r.roll_var_3]

/-- `mean_squared_error` over positionally aligned lists (the square of
the reported RMSE; `sqrt` is strictly monotone, so every RMSE comparison
below is performed on these squares). -/
def mse (actual preds : List ℚ) : ℚ :=
  qmean ((actual.zip preds).map (fun p => (p.1 - p.2) ^ 2))

/-- Lag feature in the recursive loop (lines 95-99):
`history_values[-lag]` when enough values exist, else the PADDING value
`history_values[-1]` — the most recent value. -/
def lagFeat (history : List ℚ) (lag : ℕ) : ℚ :=
  if lag ≤ history.length then history.getD (history.length - lag) 0
  else history.getLastD 0

/-- `window_vals = history_values[-3:] if len >= 3 else history_values`
(line 101). -/
def rollWindow (history : List ℚ) : List ℚ :=
  if 3 ≤ history.length then history.drop (history.length - 3) else history

/-- Population variance, the square of `np.std` (ddof = 0). -/
def npVar (l : List ℚ) : ℚ := qmean (l.map (fun x => (x - qmean l) ^ 2))

/-- One future feature row (lines 92-103): the `roll_std_3` slot is 0
when the window holds at most one value. -/
def xgbFeats (year : ℤ) (history : List ℚ) : List ℚ :=
  [(year : ℚ), lagFeat history 1, lagFeat history 2, lagFeat history 3,
    qmean (rollWindow history),
    if 1 < (rollWindow history).length then npVar (rollWindow history) else 0]

/-- The recursive multi-step loop (lines 88-110): predict, append the
prediction to the working history, advance one year. -/
def xgbRecurse (model : List ℚ → ℚ) : ℤ → List ℚ → ℕ → List (ℤ × ℚ)
  | _, _, 0 => []
  | year, history, n + 1 =>
    let y := model (xgbFeats year history)
    (year, y) :: xgbRecurse model (year + 1) (history ++ [y]) n

inductive TrainResult
  | insufficient (name : String)
  | ok (hist future : List (ℤ × ℚ)) (rmse2 : ℚ) (name : String)
deriving DecidableEq

/-- `_train_xgb` (lines 54-114).  The Python quadruple
`(None, None, None, name)` is `insufficient name`.  `X.iloc[-t:]` is the
whole frame when `t = 0` (and the last `t` rows otherwise). -/
def train_xgb (model : List ℚ → ℚ) (series : List (ℤ × ℚ))
    (horizon testSize : ℕ) : TrainResult :=
  let baseDf := make_supervised series
  if baseDf.length = 0 ∨ baseDf.length ≤ testSize + 1 then
    TrainResult.insufficient "XGBoost (insufficient data)"
  else
    let XTest := if testSize = 0 then baseDf else baseDf.drop (baseDf.length - testSize)
    let m := mse (XTest.map (fun r => r.value)) (XTest.map (fun r => model (featVec r)))
    let historyValues := baseDf.map (fun r => r.value)
    let lastYear := ((baseDf.getLast?).map (fun r => r.year)).getD 0
    TrainResult.ok (baseDf.map (fun r => (r.year, r.value)))
      (xgbRecurse model (lastYear + 1) historyValues horizon) m "XGBoost"

/-- `_train_es` (lines 117-148).  `series.iloc[:-t]` is empty when
`t = 0` while `series.iloc[-t:]` is the whole series.  The refit on the
full series and its `forecast(horizon)` are the oracle applied to the
full series; statsmodels continues the integer year index, so future row
s carries year `last + 1 + s`. -/
def train_es (esModel : List (ℤ × ℚ) → ℕ → List ℚ) (series : List (ℤ × ℚ))
    (horizon testSize : ℕ) : TrainResult :=
  if series.length ≤ testSize + 2 then
    TrainResult.insufficient "ExponentialSmoothing (insufficient data)"
  else
    let train := if testSize = 0 then [] else series.take (series.length - testSize)
    let test := if testSize = 0 then series else series.drop (series.length - testSize)
    let m := mse (test.map Prod.snd) (esModel train testSize)
    let futureVals := esModel series horizon
    let lastYear := ((series.getLast?).map Prod.fst).getD 0
    TrainResult.ok series
      ((List.range horizon).map (fun (s : ℕ) => (lastYear + 1 + (s : ℤ), futureVals.getD s 0)))
      m "ExponentialSmoothing"

structure TRow where
  year : ℤ
  value : ℚ
  type : String
deriving DecidableEq

structure Candidate where
  name : String
  rmse2 : ℚ
  hist : List (ℤ × ℚ)
  future : List (ℤ × ℚ)
deriving DecidableEq

/-- Candidate collection (lines 192-196): a model enters iff its hist,
future and rmse are all non-None, tagged with the literal model name. -/
def candidate_list (x e : TrainResult) : List Candidate :=
  (match x with
   | TrainResult.ok h f m _ => [⟨"XGBoost", m, h, f⟩]
   | TrainResult.insufficient _ => []) ++
  (match e with
   | TrainResult.ok h f m _ => [⟨"ExponentialSmoothing", m, h, f⟩]
   | TrainResult.insufficient _ => [])

def candLE (a b : Candidate) : Prop := a.rmse2 ≤ b.rmse2

instance : DecidableRel candLE := fun a b => inferInstanceAs (Decidable (a.rmse2 ≤ b.rmse2))

def trowLE (a b : TRow) : Prop := a.year ≤ b.year

instance : DecidableRel trowLE := fun a b => inferInstanceAs (Decidable (a.year ≤ b.year))

/-- `hist_df["type"] = "historical"` (line 207). -/
def htag (p : ℤ × ℚ) : TRow := ⟨p.1, p.2, "historical"⟩

/-- `fut_df["type"] = "forecast"` (line 210). -/
def ftag (p : ℤ × ℚ) : TRow := ⟨p.1, p.2, "forecast"⟩

/-- Tagging and final `sort_values("year")` (lines 206-213). -/
def render (c : Candidate) : List TRow :=
  List.insertionSort trowLE (c.hist.map htag ++ c.future.map ftag)

/-- `run_forecast` (lines 151-215).  `candidates.sort(key=rmse)` is a
stable sort, embedded as an insertion sort on the squared RMSE
(equivalent ordering), and `candidates[0]` its head. -/
def run_forecast (model : List ℚ → ℚ) (esModel : List (ℤ × ℚ) → ℕ → List ℚ)
    (data : List SRow) (country indicator : String) (horizon : ℕ) :
    List TRow × String :=
  let series := get_series data country indicator
  if series.length < 5 then
    ([], "No forecast (insufficient data)")
  else
    let testSize := min 5 (max 2 (series.length / 3))
    let x := train_xgb model series horizon testSize
    let e := train_es esModel series horizon testSize
    match candidate_list x e with
    | [] => ([], "No forecast (insufficient data)")
    | c :: cs =>
      let best := (List.insertionSort candLE (c :: cs)).headD c
      (render best, best.name)

/-- Fixed oracle standing for a fitted XGBoost model that predicts the
constant 1. -/
def const_model : List ℚ → ℚ := fun _ => 1

/-- Fixed oracle standing for a fitted exponential smoother that
forecasts the constant 0. -/
def zero_es : List (ℤ × ℚ) → ℕ → List ℚ := fun _ n => List.replicate n 0

/-- C5: whenever the derived per-(entity, indicator) series has fewer
than 5 points — the empty series included — the selector returns the
empty tagged sequence with the exact model name
"No forecast (insufficient data)".  The embedding is a total function,
so no exception can escape. -/
theorem run_forecast_insufficient (model : List ℚ → ℚ)
    (esModel : List (ℤ × ℚ) → ℕ → List ℚ) (data : List SRow)
    (country indicator : String) (horizon : ℕ)
    (h : (get_series data country indicator).length < 5) :
    run_forecast model esModel data country indicator horizon =
      ([], "No forecast (insufficient data)") := by
  simp only [run_forecast]
  rw [if_pos h]

/-- Four-point input series, the spec's own insufficiency example. -/
def four_point_data : List SRow :=
  [⟨"DE", "X", 2000, 1⟩, ⟨"DE", "X", 2001, 2⟩,
   ⟨"DE", "X", 2002, 3⟩, ⟨"DE", "X", 2003, 4⟩]

/-- C5 witness: a 4-point series with horizon 5. -/
theorem run_forecast_insufficient_witness :
    (get_series four_point_data "DE" "X").length < 5 ∧
      run_forecast const_model zero_es four_point_data "DE" "X" 5 =
        ([], "No forecast (insufficient data)") :=
  ⟨by decide,
    run_forecast_insufficient const_model zero_es four_point_data "DE" "X" 5
      (by decide)⟩

theorem supervisedRows_length (a b c : ℚ) (l : List (ℤ × ℚ)) :
    (supervisedRows a b c l).length = l.length := by
  induction l generalizing a b c with
  | nil => rfl
  | cons p tl ih => obtain ⟨y, v⟩ := p; simp [supervisedRows, ih]

theorem supervisedRows_lag1 (l : List (ℤ × ℚ)) :
    ∀ (a b c : ℚ) (j : ℕ), j < l.length →
      ((supervisedRows a b c l).getD j ⟨0, 0, 0, 0, 0, 0, 0⟩).lag1 =
        if j = 0 then c else (l.getD (j - 1) (0, 0)).2 := by
  induction l with
  | nil => intro a b c j hj; simp at hj
  | cons p tl ih =>
      intro a b c j hj
      obtain ⟨y, v⟩ := p
      cases j with
      | zero => simp [supervisedRows]
      | succ j =>
          simp only [supervisedRows, List.getD_cons_succ]
          rw [ih b c v j (by simpa using hj)]
          cases j with
          | zero => simp
          | succ j => simp

/-- C7: for a 10-point series the supervised table has exactly 7 rows
(the first 3 rows lack lag-3 history and are dropped), and in every
retained row lag1 equals the raw value at the immediately preceding
series position. -/
theorem make_supervised_ten (series : List (ℤ × ℚ))
    (h : series.length = 10) :
    (make_supervised series).length = 7 ∧
      ∀ j : ℕ, j < 7 →
        ((make_supervised series).getD j ⟨0, 0, 0, 0, 0, 0, 0⟩).lag1 =
          (series.getD (j + 2) (0, 0)).2 := by
  cases series with
  | nil => simp at h
  | cons p0 t0 =>
    cases t0 with
    | nil => simp at h
    | cons p1 t1 =>
      cases t1 with
      | nil => simp at h
      | cons p2 t2 =>
          obtain ⟨y0, a⟩ := p0
          obtain ⟨y1, b⟩ := p1
          obtain ⟨y2, c⟩ := p2
          have hlen : t2.length = 7 := by simpa using h
          refine ⟨by simp [make_supervised, supervisedRows_length, hlen], ?_⟩
          intro j hj
          show ((supervisedRows a b c t2).getD j ⟨0, 0, 0, 0, 0, 0, 0⟩).lag1 = _
          rw [supervisedRows_lag1 t2 a b c j (by omega)]
          cases j with
          | zero => simp
          | succ j => simp

/-- Modelled from the spec: the claimed padding rule for the recursive
lag features — "padding with the oldest available value when fewer than
3 values exist" — i.e. the head of the working history instead of
`history_values[-1]`. -/
def lag_pad_oldest_claim (history : List ℚ) (lag : ℕ) : ℚ :=
  if lag ≤ history.length then history.getD (history.length - lag) 0
  else history.headD 0

/-- C8 counterexample: with working history [1, 2] the code pads the
missing lag3 with the most recent value 2 (`history_values[-1]`), not
the oldest available value 1 required by the claim. -/
theorem lag_padding_oldest_counterexample :
    lagFeat [1, 2] 3 = 2 ∧ lag_pad_oldest_claim [1, 2] 3 = 1 ∧
      ¬ lagFeat [1, 2] 3 = lag_pad_oldest_claim [1, 2] 3 := by decide

theorem xgbRecurse_getD (model : List ℚ → ℚ) :
    ∀ (n : ℕ) (year : ℤ) (h : List ℚ) (s : ℕ), s < n →
      (xgbRecurse model year h n).getD s (0, 0) =
        (year + (s : ℤ), model (xgbFeats (year + (s : ℤ))
          (h ++ ((xgbRecurse model year h n).take s).map Prod.snd))) := by
  intro n
  induction n with
  | zero => intro year h s hs; exact absurd hs (Nat.not_lt_zero s)
  | succ n ih =>
      intro year h s hs
      cases s with
      | zero => simp [xgbRecurse]
      | succ s =>
          simp only [xgbRecurse, List.getD_cons_succ, List.take_succ_cons,
            List.map_cons]
          rw [ih (year + 1) (h ++ [model (xgbFeats year h)]) s (by omega)]
          have hyr : year + 1 + (s : ℤ) = year + ((s + 1 : ℕ) : ℤ) := by
            push_cast
            ring
          rw [hyr, List.append_assoc]
          rfl

/-- C8 amended: in the recursive multi-step prediction, lag k is the
k-th most recent working value when k values exist and otherwise the
MOST RECENT value (not the oldest); the rolling statistics range over
the trailing at-most-3 values with the std slot 0 when only one value
is in the window; and step s sees the original history extended by all
earlier predictions, each step advancing the year by one. -/
theorem xgb_recursion_spec (model : List ℚ → ℚ) (year : ℤ) (h : List ℚ)
    (n : ℕ) :
    (∀ k : ℕ, k ≤ h.length → lagFeat h k = h.getD (h.length - k) 0) ∧
      (h.length < 3 → lagFeat h 3 = h.getLastD 0) ∧
      rollWindow h = h.drop (h.length - 3) ∧
      (rollWindow h).length = min 3 h.length ∧
      ((rollWindow h).length = 1 → (xgbFeats year h).getD 5 0 = 0) ∧
      (∀ s : ℕ, s < n →
        (xgbRecurse model year h n).getD s (0, 0) =
          (year + (s : ℤ), model (xgbFeats (year + (s : ℤ))
            (h ++ ((xgbRecurse model year h n).take s).map Prod.snd)))) := by
  refine ⟨?_, ?_, ?_, ?_, ?_, fun s hs => xgbRecurse_getD model n year h s hs⟩
  · intro k hk
    unfold lagFeat
    rw [if_pos hk]
  · intro hlt
    unfold lagFeat
    rw [if_neg (by omega)]
  · unfold rollWindow
    split
    · rfl
    · rw [Nat.sub_eq_zero_of_le (by omega), List.drop_zero]
  · unfold rollWindow
    split
    · rw [List.length_drop]
      omega
    · rw [Nat.min_eq_right (by omega)]
  · intro h1
    simp [xgbFeats, h1]

/-- C8 witness: the amended lag/recursion facts instantiated at the
constant model, working history [1, 2] and two forecast steps. -/
theorem xgb_recursion_spec_witness :
    lagFeat [(1 : ℚ), 2] 3 = List.getLastD [(1 : ℚ), 2] 0 ∧
      (xgbRecurse const_model 2020 [(1 : ℚ), 2] 2).getD 1 (0, 0) =
        (2020 + ((1 : ℕ) : ℤ), const_model (xgbFeats (2020 + ((1 : ℕ) : ℤ))
          ([(1 : ℚ), 2] ++
            ((xgbRecurse const_model 2020 [(1 : ℚ), 2] 2).take 1).map Prod.snd))) :=
  ⟨(xgb_recursion_spec const_model 2020 [1, 2] 2).2.1 (by decide),
    (xgb_recursion_spec const_model 2020 [1, 2] 2).2.2.2.2.2 1 (by decide)⟩

theorem insertionSort_pair_head (a b : Candidate) :
    (List.insertionSort candLE [a, b]).headD a =
      if a.rmse2 ≤ b.rmse2 then a else b := by
  by_cases h : candLE a b
  · simp only [List.insertionSort, List.orderedInsert, if_pos h]
    rw [if_pos (show a.rmse2 ≤ b.rmse2 from h)]
    rfl
  · simp only [List.insertionSort, List.orderedInsert, if_neg h]
    rw [if_neg (show ¬a.rmse2 ≤ b.rmse2 from h)]
    rfl

/-- C6: with a series of at least 5 points the selector uses
`test_size = min(5, max(2, len(series) // 3))`, runs both forecasters at
that size, drops any insufficient-data candidate, picks the strictly
lower (squared) RMSE with the tree-based candidate winning ties, and
falls back to the insufficient result when no candidate remains. -/
theorem run_forecast_selection (model : List ℚ → ℚ)
    (esModel : List (ℤ × ℚ) → ℕ → List ℚ) (data : List SRow)
    (country indicator : String) (horizon : ℕ)
    (h5 : 5 ≤ (get_series data country indicator).length) :
    (∀ xh xf xm xn eh ef em en,
      train_xgb model (get_series data country indicator) horizon
          (min 5 (max 2 ((get_series data country indicator).length / 3))) =
        TrainResult.ok xh xf xm xn →
      train_es esModel (get_series data country indicator) horizon
          (min 5 (max 2 ((get_series data country indicator).length / 3))) =
        TrainResult.ok eh ef em en →
      run_forecast model esModel data country indicator horizon =
        if em < xm then
          (render ⟨"ExponentialSmoothing", em, eh, ef⟩, "ExponentialSmoothing")
        else (render ⟨"XGBoost", xm, xh, xf⟩, "XGBoost")) ∧
    (∀ xh xf xm xn en,
      train_xgb model (get_series data country indicator) horizon
          (min 5 (max 2 ((get_series data country indicator).length / 3))) =
        TrainResult.ok xh xf xm xn →
      train_es esModel (get_series data country indicator) horizon
          (min 5 (max 2 ((get_series data country indicator).length / 3))) =
        TrainResult.insufficient en →
      run_forecast model esModel data country indicator horizon =
        (render ⟨"XGBoost", xm, xh, xf⟩, "XGBoost")) ∧
    (∀ xn eh ef em en,
      train_xgb model (get_series data country indicator) horizon
          (min 5 (max 2 ((get_series data country indicator).length / 3))) =
        TrainResult.insufficient xn →
      train_es esModel (get_series data country indicator) horizon
          (min 5 (max 2 ((get_series data country indicator).length / 3))) =
        TrainResult.ok eh ef em en →
      run_forecast model esModel data country indicator horizon =
        (render ⟨"ExponentialSmoothing", em, eh, ef⟩, "ExponentialSmoothing")) ∧
    (∀ xn en,
      train_xgb model (get_series data country indicator) horizon
          (min 5 (max 2 ((get_series data country indicator).length / 3))) =
        TrainResult.insufficient xn →
      train_es esModel (get_series data country indicator) horizon
          (min 5 (max 2 ((get_series data country indicator).length / 3))) =
        TrainResult.insufficient en →
      run_forecast model esModel data country indicator horizon =
        ([], "No forecast (insufficient data)")) := by
  have hnot : ¬ (get_series data country indicator).length < 5 := by omega
  refine ⟨?_, ?_, ?_, ?_⟩
  · intro xh xf xm xn eh ef em en hx he
    simp only [run_forecast]
    rw [if_neg hnot, hx, he]
    simp only [candidate_list, List.cons_append, List.nil_append]
    rw [insertionSort_pair_head]
    by_cases hc : em < xm
    · have hnl : ¬ ((⟨"XGBoost", xm, xh, xf⟩ : Candidate).rmse2 ≤
          (⟨"ExponentialSmoothing", em, eh, ef⟩ : Candidate).rmse2) := not_le.mpr hc
      rw [if_neg hnl, if_pos hc]
    · have hle : (⟨"XGBoost", xm, xh, xf⟩ : Candidate).rmse2 ≤
          (⟨"ExponentialSmoothing", em, eh, ef⟩ : Candidate).rmse2 := not_lt.mp hc
      rw [if_pos hle, if_neg hc]
  · intro xh xf xm xn en hx he
    simp only [run_forecast]
    rw [if_neg hnot, hx, he]
    simp only [candidate_list, List.cons_append, List.nil_append, List.append_nil]
    rfl
  · intro xn eh ef em en hx he
    simp only [run_forecast]
    rw [if_neg hnot, hx, he]
    simp only [candidate_list, List.cons_append, List.nil_append]
    rfl
  · intro xn en hx he
    simp only [run_forecast]
    rw [if_neg hnot, hx, he]
    rfl

theorem range_pairwise_lt (n : ℕ) : List.Pairwise (· < ·) (List.range n) := by
  induction n with
  | zero => simp
  | succ n ih =>
      rw [List.range_succ]
      refine List.pairwise_append.mpr ⟨ih, by simp, ?_⟩
      intro a ha b hb
      simp only [List.mem_singleton] at hb
      subst hb
      exact List.mem_range.mp ha

theorem le_getLastD_of_sorted (l : List ℤ)
    (hp : List.Pairwise (fun a b : ℤ => a ≤ b) l) :
    ∀ x ∈ l, x ≤ l.getLastD 0 := by
  induction l with
  | nil => intro x hx; cases hx
  | cons a t ih =>
      intro x hx
      cases t with
      | nil =>
          simp only [List.mem_singleton] at hx
          subst hx
          simp [List.getLastD]
      | cons b t2 =>
          have htail : (a :: b :: t2).getLastD 0 = (b :: t2).getLastD 0 := by
            rw [List.getLastD_eq_getLast?, List.getLastD_eq_getLast?,
              List.getLast?_cons_cons]
          rw [htail]
          rcases List.mem_cons.mp hx with rfl | hxt
          · have hmem : (b :: t2).getLastD 0 ∈ b :: t2 := by
              rw [List.getLastD_eq_getLast?]
              cases hgl : (b :: t2).getLast? with
              | none => simp at hgl
              | some y =>
                  exact List.mem_of_mem_getLast? (Option.mem_def.mpr hgl)
            exact (List.pairwise_cons.mp hp).1 _ hmem
          · exact ih hp.of_cons x hxt

instance : IsTotal ℤ yearLE := ⟨fun a b => le_total a b⟩

instance : IsTrans ℤ yearLE := ⟨fun _ _ _ hab hbc => le_trans hab hbc⟩

instance : IsTotal TRow trowLE := ⟨fun a b => le_total a.year b.year⟩

instance : IsTrans TRow trowLE := ⟨fun _ _ _ hab hbc => le_trans hab hbc⟩

theorem get_series_sorted (data : List SRow) (country indicator : String) :
    List.Pairwise (fun p q : ℤ × ℚ => p.1 ≤ q.1)
      (get_series data country indicator) := by
  simp only [get_series]
  exact List.Pairwise.map _ (fun a b hab => hab)
    (List.sorted_insertionSort yearLE _)

theorem supervisedRows_pairs (l : List (ℤ × ℚ)) :
    ∀ a b c : ℚ, (supervisedRows a b c l).map (fun r => (r.year, r.value)) = l := by
  induction l with
  | nil => intro a b c; rfl
  | cons p tl ih =>
      intro a b c
      obtain ⟨y, v⟩ := p
      simp [supervisedRows, ih]

theorem make_supervised_pairs (series : List (ℤ × ℚ)) (h3 : 3 ≤ series.length) :
    (make_supervised series).map (fun r => (r.year, r.value)) = series.drop 3 := by
  cases series with
  | nil => simp at h3
  | cons p0 t0 =>
    cases t0 with
    | nil => simp at h3
    | cons p1 t1 =>
      cases t1 with
      | nil => simp at h3
      | cons p2 t2 =>
          obtain ⟨y0, a⟩ := p0
          obtain ⟨y1, b⟩ := p1
          obtain ⟨y2, c⟩ := p2
          simp [make_supervised, supervisedRows_pairs]

theorem xgbRecurse_years (model : List ℚ → ℚ) :
    ∀ (n : ℕ) (year : ℤ) (h : List ℚ),
      (xgbRecurse model year h n).map Prod.fst =
        (List.range n).map (fun s : ℕ => year + (s : ℤ)) := by
  intro n
  induction n with
  | zero => intro year h; rfl
  | succ n ih =>
      intro year h
      rw [List.range_succ_eq_map]
      simp only [xgbRecurse, List.map_cons, ih, List.map_map]
      congr 1
      · simp
      · refine List.map_congr_left ?_
        intro s hs
        simp only [Function.comp_apply]
        push_cast
        ring

theorem render_segments (c : Candidate)
    (hh : List.Pairwise (fun p q : ℤ × ℚ => p.1 ≤ q.1) c.hist)
    (hf : List.Pairwise (fun p q : ℤ × ℚ => p.1 ≤ q.1) c.future)
    (hcross : ∀ p ∈ c.hist, ∀ q ∈ c.future, p.1 ≤ q.1) :
    (render c).filter (fun r => r.type == "historical") = c.hist.map htag ∧
      (render c).filter (fun r => r.type == "forecast") = c.future.map ftag := by
  have hsorted : List.Pairwise trowLE (c.hist.map htag ++ c.future.map ftag) := by
    refine List.pairwise_append.mpr
      ⟨List.Pairwise.map _ (fun a b hab => hab) hh,
        List.Pairwise.map _ (fun a b hab => hab) hf, ?_⟩
    intro x hx y hy
    obtain ⟨p, hp, rfl⟩ := List.mem_map.mp hx
    obtain ⟨q, hq, rfl⟩ := List.mem_map.mp hy
    exact hcross p hp q hq
  have heq : render c = c.hist.map htag ++ c.future.map ftag := by
    unfold render
    exact List.Sorted.insertionSort_eq hsorted
  rw [heq, List.filter_append, List.filter_append]
  have hself : (c.hist.map htag).filter (fun r => r.type == "historical") =
      c.hist.map htag := by
    refine List.filter_eq_self.mpr ?_
    intro x hx
    obtain ⟨p, hp, rfl⟩ := List.mem_map.mp hx
    rfl
  have hdrop : (c.future.map ftag).filter (fun r => r.type == "historical") =
      [] := by
    refine List.filter_eq_nil_iff.mpr ?_
    intro x hx
    obtain ⟨p, hp, rfl⟩ := List.mem_map.mp hx
    simp [ftag]
  have hself2 : (c.future.map ftag).filter (fun r => r.type == "forecast") =
      c.future.map ftag := by
    refine List.filter_eq_self.mpr ?_
    intro x hx
    obtain ⟨p, hp, rfl⟩ := List.mem_map.mp hx
    rfl
  have hdrop2 : (c.hist.map htag).filter (fun r => r.type == "forecast") =
      [] := by
    refine List.filter_eq_nil_iff.mpr ?_
    intro x hx
    obtain ⟨p, hp, rfl⟩ := List.mem_map.mp hx
    simp [htag]
  rw [hself, hdrop, hself2, hdrop2, List.append_nil, List.nil_append]
  exact ⟨rfl, rfl⟩

theorem train_xgb_ok_inv (model : List ℚ → ℚ) (series : List (ℤ × ℚ))
    (horizon testSize : ℕ) (xh xf : List (ℤ × ℚ)) (xm : ℚ) (xn : String)
    (h : train_xgb model series horizon testSize = TrainResult.ok xh xf xm xn) :
    xh = (make_supervised series).map (fun r => (r.year, r.value)) ∧
      xf = xgbRecurse model
        ((((make_supervised series).getLast?).map (fun r => r.year)).getD 0 + 1)
        ((make_supervised series).map (fun r => r.value)) horizon ∧
      xn = "XGBoost" ∧ make_supervised series ≠ [] := by
  unfold train_xgb at h
  by_cases hc : (make_supervised series).length = 0 ∨
      (make_supervised series).length ≤ testSize + 1
  · rw [if_pos hc] at h
    cases h
  · rw [if_neg hc] at h
    injection h with h1 h2 h3 h4
    push_neg at hc
    refine ⟨h1.symm, h2.symm, h4.symm, ?_⟩
    intro hnil
    exact hc.1 (by rw [hnil]; rfl)

theorem train_es_ok_inv (esModel : List (ℤ × ℚ) → ℕ → List ℚ)
    (series : List (ℤ × ℚ)) (horizon testSize : ℕ) (eh ef : List (ℤ × ℚ))
    (em : ℚ) (en : String)
    (h : train_es esModel series horizon testSize = TrainResult.ok eh ef em en) :
    eh = series ∧
      ef = (List.range horizon).map (fun s : ℕ =>
        ((((series.getLast?).map Prod.fst).getD 0) + 1 + (s : ℤ),
          (esModel series horizon).getD s 0)) ∧
      en = "ExponentialSmoothing" := by
  unfold train_es at h
  by_cases hc : series.length ≤ testSize + 2
  · rw [if_pos hc] at h
    cases h
  · rw [if_neg hc] at h
    injection h with h1 h2 h3 h4
    exact ⟨h1.symm, h2.symm, h4.symm⟩

theorem xgb_candidate_segments (model : List ℚ → ℚ) (series : List (ℤ × ℚ))
    (horizon : ℕ) (c : Candidate)
    (hS : List.Pairwise (fun p q : ℤ × ℚ => p.1 ≤ q.1) series)
    (hms : make_supervised series ≠ []) (h3 : 3 ≤ series.length)
    (hhist : c.hist = (make_supervised series).map (fun r => (r.year, r.value)))
    (hfut : c.future = xgbRecurse model
      ((((make_supervised series).getLast?).map (fun r => r.year)).getD 0 + 1)
      ((make_supervised series).map (fun r => r.value)) horizon) :
    ((render c).filter (fun r => r.type == "historical")).map (fun r => r.year) =
        (series.map Prod.fst).drop 3 ∧
      (render c).filter (fun r => r.type == "historical") ≠ [] ∧
      ((render c).filter (fun r => r.type == "forecast")).map (fun r => r.year) =
        (List.range horizon).map (fun s : ℕ =>
          (((render c).filter (fun r => r.type == "historical")).map
            (fun r => r.year)).getLastD 0 + 1 + (s : ℤ)) := by
  have hpairs : c.hist = series.drop 3 := by
    rw [hhist, make_supervised_pairs series h3]
  have hh : List.Pairwise (fun p q : ℤ × ℚ => p.1 ≤ q.1) c.hist := by
    rw [hpairs]
    exact List.Pairwise.sublist (List.drop_sublist 3 series) hS
  have hfy : c.future.map Prod.fst = (List.range horizon).map (fun s : ℕ =>
      (((make_supervised series).getLast?).map (fun r => r.year)).getD 0 + 1 + (s : ℤ)) := by
    rw [hfut, xgbRecurse_years]
  have hf : List.Pairwise (fun p q : ℤ × ℚ => p.1 ≤ q.1) c.future := by
    refine List.pairwise_map.mp ?_
    show List.Pairwise (fun a b : ℤ => a ≤ b) (c.future.map Prod.fst)
    rw [hfy]
    exact List.Pairwise.map _ (fun a b hab => by omega) (range_pairwise_lt horizon)
  have hyearmap : c.hist.map Prod.fst = (make_supervised series).map (fun r => r.year) := by
    rw [hhist, List.map_map]
    rfl
  have hlast : (c.hist.map Prod.fst).getLastD 0 =
      (((make_supervised series).getLast?).map (fun r => r.year)).getD 0 := by
    rw [hyearmap, List.getLastD_eq_getLast?, List.getLast?_map]
  have hcross : ∀ p ∈ c.hist, ∀ q ∈ c.future, p.1 ≤ q.1 := by
    intro p hp q hq
    have hp1 : p.1 ≤ (c.hist.map Prod.fst).getLastD 0 :=
      le_getLastD_of_sorted _ (List.Pairwise.map _ (fun a b hab => hab) hh)
        p.1 (List.mem_map_of_mem _ hp)
    have hq1 : q.1 ∈ c.future.map Prod.fst := List.mem_map_of_mem _ hq
    rw [hfy] at hq1
    obtain ⟨s, _, hqs⟩ := List.mem_map.mp hq1
    rw [hlast] at hp1
    omega
  obtain ⟨hfil1, hfil2⟩ := render_segments c hh hf hcross
  have hyears : ((render c).filter (fun r => r.type == "historical")).map
      (fun r => r.year) = c.hist.map Prod.fst := by
    rw [hfil1, List.map_map]
    rfl
  refine ⟨?_, ?_, ?_⟩
  · rw [hyears, hpairs, List.map_drop]
  · rw [hfil1]
    intro hcontra
    rw [List.map_eq_nil_iff, hhist, List.map_eq_nil_iff] at hcontra
    exact hms hcontra
  · rw [hfil2, List.map_map]
    have hmapf : ((fun r : TRow => r.year) ∘ ftag) = Prod.fst := rfl
    rw [hmapf, hfy, hyears, hlast]

theorem es_candidate_segments (series : List (ℤ × ℚ)) (horizon : ℕ)
    (vals : List ℚ) (c : Candidate)
    (hS : List.Pairwise (fun p q : ℤ × ℚ => p.1 ≤ q.1) series)
    (hne : series ≠ [])
    (hhist : c.hist = series)
    (hfut : c.future = (List.range horizon).map (fun s : ℕ =>
      ((((series.getLast?).map Prod.fst).getD 0) + 1 + (s : ℤ), vals.getD s 0))) :
    ((render c).filter (fun r => r.type == "historical")).map (fun r => r.year) =
        series.map Prod.fst ∧
      (render c).filter (fun r => r.type == "historical") ≠ [] ∧
      ((render c).filter (fun r => r.type == "forecast")).map (fun r => r.year) =
        (List.range horizon).map (fun s : ℕ =>
          (((render c).filter (fun r => r.type == "historical")).map
            (fun r => r.year)).getLastD 0 + 1 + (s : ℤ)) := by
  have hh : List.Pairwise (fun p q : ℤ × ℚ => p.1 ≤ q.1) c.hist := hhist ▸ hS
  have hfy : c.future.map Prod.fst = (List.range horizon).map (fun s : ℕ =>
      (((series.getLast?).map Prod.fst).getD 0) + 1 + (s : ℤ)) := by
    rw [hfut, List.map_map]
    rfl
  have hf : List.Pairwise (fun p q : ℤ × ℚ => p.1 ≤ q.1) c.future := by
    refine List.pairwise_map.mp ?_
    show List.Pairwise (fun a b : ℤ => a ≤ b) (c.future.map Prod.fst)
    rw [hfy]
    exact List.Pairwise.map _ (fun a b hab => by omega) (range_pairwise_lt horizon)
  have hlast : (c.hist.map Prod.fst).getLastD 0 =
      (((series.getLast?).map Prod.fst).getD 0) := by
    rw [hhist, List.getLastD_eq_getLast?, List.getLast?_map]
  have hcross : ∀ p ∈ c.hist, ∀ q ∈ c.future, p.1 ≤ q.1 := by
    intro p hp q hq
    have hp1 : p.1 ≤ (c.hist.map Prod.fst).getLastD 0 :=
      le_getLastD_of_sorted _ (List.Pairwise.map _ (fun a b hab => hab) hh)
        p.1 (List.mem_map_of_mem _ hp)
    have hq1 : q.1 ∈ c.future.map Prod.fst := List.mem_map_of_mem _ hq
    rw [hfy] at hq1
    obtain ⟨s, _, hqs⟩ := List.mem_map.mp hq1
    rw [hlast] at hp1
    omega
  obtain ⟨hfil1, hfil2⟩ := render_segments c hh hf hcross
  have hyears : ((render c).filter (fun r => r.type == "historical")).map
      (fun r => r.year) = c.hist.map Prod.fst := by
    rw [hfil1, List.map_map]
    rfl
  refine ⟨?_, ?_, ?_⟩
  · rw [hyears, hhist]
  · rw [hfil1]
    intro hcontra
    rw [List.map_eq_nil_iff, hhist] at hcontra
    exact hne hcontra
  · rw [hfil2, List.map_map]
    have hmapf : ((fun r : TRow => r.year) ∘ ftag) = Prod.fst := rfl
    rw [hmapf, hfy, hyears, hlast]

/-- C1 amended: for every successful forecast the forecast segment is
exactly `horizon` consecutive years immediately following the last
historical year with no gap or overlap, and the historical segment's
years are the input series' years when the smoothing forecaster wins but
only the input series' years MINUS THE FIRST THREE (the rows the feature
builder drops) when the tree-based forecaster wins. -/
theorem run_forecast_segments (model : List ℚ → ℚ)
    (esModel : List (ℤ × ℚ) → ℕ → List ℚ) (data : List SRow)
    (country indicator : String) (horizon : ℕ) :
    ∀ out name,
      run_forecast model esModel data country indicator horizon = (out, name) →
      out ≠ [] →
      ((name = "XGBoost" ∧
          (out.filter (fun r => r.type == "historical")).map (fun r => r.year) =
            ((get_series data country indicator).map Prod.fst).drop 3) ∨
        (name = "ExponentialSmoothing" ∧
          (out.filter (fun r => r.type == "historical")).map (fun r => r.year) =
            (get_series data country indicator).map Prod.fst)) ∧
      out.filter (fun r => r.type == "historical") ≠ [] ∧
      (out.filter (fun r => r.type == "forecast")).map (fun r => r.year) =
        (List.range horizon).map (fun s : ℕ =>
          ((out.filter (fun r => r.type == "historical")).map
            (fun r => r.year)).getLastD 0 + 1 + (s : ℤ)) := by
  intro out name hrun hne
  by_cases hlen : (get_series data country indicator).length < 5
  · simp only [run_forecast] at hrun
    rw [if_pos hlen] at hrun
    cases hrun
    exact absurd rfl hne
  · simp only [run_forecast] at hrun
    rw [if_neg hlen] at hrun
    have hS := get_series_sorted data country indicator
    have h3 : 3 ≤ (get_series data country indicator).length := by omega
    have hnonempty : get_series data country indicator ≠ [] :=
      List.length_pos.mp (by omega)
    cases hx : train_xgb model (get_series data country indicator) horizon
        (min 5 (max 2 ((get_series data country indicator).length / 3))) with
    | insufficient xn =>
        cases he : train_es esModel (get_series data country indicator) horizon
            (min 5 (max 2 ((get_series data country indicator).length / 3))) with
        | insufficient en =>
            rw [hx, he] at hrun
            simp only [candidate_list, List.nil_append] at hrun
            cases hrun
            exact absurd rfl hne
        | ok eh ef em en =>
            obtain ⟨he1, he2, he3⟩ := train_es_ok_inv _ _ _ _ _ _ _ _ he
            rw [hx, he] at hrun
            simp only [candidate_list, List.nil_append, List.insertionSort,
              List.orderedInsert, List.headD_cons] at hrun
            cases hrun
            have hsegs := es_candidate_segments (get_series data country indicator)
              horizon (esModel (get_series data country indicator) horizon)
              ⟨"ExponentialSmoothing", em, eh, ef⟩ hS hnonempty he1 he2
            exact ⟨Or.inr ⟨rfl, hsegs.1⟩, hsegs.2.1, hsegs.2.2⟩
    | ok xh xf xm xn =>
        obtain ⟨hx1, hx2, hx3, hx4⟩ := train_xgb_ok_inv _ _ _ _ _ _ _ _ hx
        cases he : train_es esModel (get_series data country indicator) horizon
            (min 5 (max 2 ((get_series data country indicator).length / 3))) with
        | insufficient en =>
            rw [hx, he] at hrun
            simp only [candidate_list, List.append_nil, List.insertionSort,
              List.orderedInsert, List.headD_cons] at hrun
            cases hrun
            have hsegs := xgb_candidate_segments model
              (get_series data country indicator) horizon
              ⟨"XGBoost", xm, xh, xf⟩ hS hx4 h3 hx1 hx2
            exact ⟨Or.inl ⟨rfl, hsegs.1⟩, hsegs.2.1, hsegs.2.2⟩
        | ok eh ef em en =>
            obtain ⟨he1, he2, he3⟩ := train_es_ok_inv _ _ _ _ _ _ _ _ he
            rw [hx, he] at hrun
            simp only [candidate_list, List.cons_append, List.nil_append] at hrun
            rw [insertionSort_pair_head] at hrun
            by_cases hcmp : (⟨"XGBoost", xm, xh, xf⟩ : Candidate).rmse2 ≤
                (⟨"ExponentialSmoothing", em, eh, ef⟩ : Candidate).rmse2
            · rw [if_pos hcmp] at hrun
              cases hrun
              have hsegs := xgb_candidate_segments model
                (get_series data country indicator) horizon
                ⟨"XGBoost", xm, xh, xf⟩ hS hx4 h3 hx1 hx2
              exact ⟨Or.inl ⟨rfl, hsegs.1⟩, hsegs.2.1, hsegs.2.2⟩
            · rw [if_neg hcmp] at hrun
              cases hrun
              have hsegs := es_candidate_segments (get_series data country indicator)
                horizon (esModel (get_series data country indicator) horizon)
                ⟨"ExponentialSmoothing", em, eh, ef⟩ hS hnonempty he1 he2
              exact ⟨Or.inr ⟨rfl, hsegs.1⟩, hsegs.2.1, hsegs.2.2⟩

/-- Ten observations of the same (entity, indicator) pair, years
2000-2009, all values 1: a fixture on which the tree-based candidate
wins model selection under `const_model` / `zero_es`. -/
def demo_data : List SRow :=
  [⟨"DE", "X", 2000, 1⟩, ⟨"DE", "X", 2001, 1⟩, ⟨"DE", "X", 2002, 1⟩,
   ⟨"DE", "X", 2003, 1⟩, ⟨"DE", "X", 2004, 1⟩, ⟨"DE", "X", 2005, 1⟩,
   ⟨"DE", "X", 2006, 1⟩, ⟨"DE", "X", 2007, 1⟩, ⟨"DE", "X", 2008, 1⟩,
   ⟨"DE", "X", 2009, 1⟩]

def demo_series : List (ℤ × ℚ) :=
  [(2000, 1), (2001, 1), (2002, 1), (2003, 1), (2004, 1),
   (2005, 1), (2006, 1), (2007, 1), (2008, 1), (2009, 1)]

theorem demo_series_eval : get_series demo_data "DE" "X" = demo_series := by
  norm_num [get_series, demo_data, demo_series, qmean, yearLE,
    List.insertionSort, List.orderedInsert, List.dedup]

def demo_hist : List (ℤ × ℚ) :=
  [(2003, 1), (2004, 1), (2005, 1), (2006, 1), (2007, 1), (2008, 1), (2009, 1)]

def demo_feat (y : ℤ) : FeatRow := ⟨y, 1, 1, 1, 1, 1, 0⟩

theorem demo_sup_eval : make_supervised demo_series =
    [demo_feat 2003, demo_feat 2004, demo_feat 2005, demo_feat 2006,
     demo_feat 2007, demo_feat 2008, demo_feat 2009] := by
  norm_num [make_supervised, demo_series, supervisedRows, sampleVar3, demo_feat]

def demo_xfut : List (ℤ × ℚ) :=
  [(2010, 1), (2011, 1), (2012, 1), (2013, 1), (2014, 1)]

theorem demo_xgb_eval : train_xgb const_model demo_series 5 3 =
    TrainResult.ok demo_hist demo_xfut 0 "XGBoost" := by
  norm_num [train_xgb, demo_sup_eval, demo_feat, mse, qmean, featVec,
    const_model, xgbRecurse, xgbFeats, lagFeat, rollWindow, npVar,
    demo_hist, demo_xfut]

def demo_efut : List (ℤ × ℚ) :=
  [(2010, 0), (2011, 0), (2012, 0), (2013, 0), (2014, 0)]

theorem demo_es_eval : train_es zero_es demo_series 5 3 =
    TrainResult.ok demo_series demo_efut 1 "ExponentialSmoothing" := by
  norm_num [train_es, demo_series, zero_es, mse, qmean, demo_efut,
    List.replicate, List.range, List.range.loop]

theorem demo_len : demo_series.length = 10 := by simp [demo_series]

theorem demo_ts : min 5 (max 2 (demo_series.length / 3)) = 3 := by
  simp [demo_series]

theorem demo_run_eval :
    run_forecast const_model zero_es demo_data "DE" "X" 5 =
      ([⟨2003, 1, "historical"⟩, ⟨2004, 1, "historical"⟩, ⟨2005, 1, "historical"⟩,
        ⟨2006, 1, "historical"⟩, ⟨2007, 1, "historical"⟩, ⟨2008, 1, "historical"⟩,
        ⟨2009, 1, "historical"⟩, ⟨2010, 1, "forecast"⟩, ⟨2011, 1, "forecast"⟩,
        ⟨2012, 1, "forecast"⟩, ⟨2013, 1, "forecast"⟩, ⟨2014, 1, "forecast"⟩],
        "XGBoost") := by
  norm_num [run_forecast, demo_series_eval, demo_len, demo_ts, demo_xgb_eval,
    demo_es_eval, candidate_list, List.insertionSort, List.orderedInsert,
    candLE, trowLE, render, htag, ftag, demo_hist, demo_xfut, demo_efut]

/-- C6 witness: on the ten-point fixture the tree-based candidate has
squared RMSE 0, the smoothing candidate 1, and the selector returns the
tree-based rendering. -/
theorem run_forecast_selection_witness :
    5 ≤ (get_series demo_data "DE" "X").length ∧
      run_forecast const_model zero_es demo_data "DE" "X" 5 =
        (render ⟨"XGBoost", 0, demo_hist, demo_xfut⟩, "XGBoost") := by
  have hxv : train_xgb const_model (get_series demo_data "DE" "X") 5
      (min 5 (max 2 ((get_series demo_data "DE" "X").length / 3))) =
      TrainResult.ok demo_hist demo_xfut 0 "XGBoost" := by
    rw [demo_series_eval, demo_ts]
    exact demo_xgb_eval
  have hev : train_es zero_es (get_series demo_data "DE" "X") 5
      (min 5 (max 2 ((get_series demo_data "DE" "X").length / 3))) =
      TrainResult.ok demo_series demo_efut 1 "ExponentialSmoothing" := by
    rw [demo_series_eval, demo_ts]
    exact demo_es_eval
  have h5 : 5 ≤ (get_series demo_data "DE" "X").length := by
    rw [demo_series_eval, demo_len]
    omega
  have happ := (run_forecast_selection const_model zero_es demo_data "DE" "X" 5
    h5).1 demo_hist demo_xfut 0 "XGBoost" demo_series demo_efut 1
    "ExponentialSmoothing" hxv hev
  refine ⟨h5, ?_⟩
  rw [happ, if_neg (by norm_num : ¬(1 : ℚ) < 0)]

/-- C1 counterexample: a successful forecast (the ten-point fixture, on
which the tree-based forecaster wins) whose historical segment does NOT
reproduce the input series' years — 2000-2002 are missing. -/
theorem run_forecast_segments_counterexample :
    (run_forecast const_model zero_es demo_data "DE" "X" 5).1 ≠ [] ∧
      ¬(((run_forecast const_model zero_es demo_data "DE" "X" 5).1.filter
            (fun r => r.type == "historical")).map (fun r => r.year) =
          (get_series demo_data "DE" "X").map Prod.fst) := by
  rw [demo_run_eval, demo_series_eval]
  constructor
  · decide
  · decide

/-- C1 witness: the amended statement instantiated on the ten-point
fixture, where the tree-based forecaster wins. -/
theorem run_forecast_segments_witness :
    (("XGBoost" = "XGBoost" ∧
        (([⟨2003, 1, "historical"⟩, ⟨2004, 1, "historical"⟩, ⟨2005, 1, "historical"⟩,
          ⟨2006, 1, "historical"⟩, ⟨2007, 1, "historical"⟩, ⟨2008, 1, "historical"⟩,
          ⟨2009, 1, "historical"⟩, ⟨2010, 1, "forecast"⟩, ⟨2011, 1, "forecast"⟩,
          ⟨2012, 1, "forecast"⟩, ⟨2013, 1, "forecast"⟩,
          ⟨2014, 1, "forecast"⟩] : List TRow).filter
            (fun r => r.type == "historical")).map (fun r => r.year) =
          ((get_series demo_data "DE" "X").map Prod.fst).drop 3) ∨
      ("XGBoost" = "ExponentialSmoothing" ∧
        (([⟨2003, 1, "historical"⟩, ⟨2004, 1, "historical"⟩, ⟨2005, 1, "historical"⟩,
          ⟨2006, 1, "historical"⟩, ⟨2007, 1, "historical"⟩, ⟨2008, 1, "historical"⟩,
          ⟨2009, 1, "historical"⟩, ⟨2010, 1, "forecast"⟩, ⟨2011, 1, "forecast"⟩,
          ⟨2012, 1, "forecast"⟩, ⟨2013, 1, "forecast"⟩,
          ⟨2014, 1, "forecast"⟩] : List TRow).filter
            (fun r => r.type == "historical")).map (fun r => r.year) =
          (get_series demo_data "DE" "X").map Prod.fst)) ∧
      ([⟨2003, 1, "historical"⟩, ⟨2004, 1, "historical"⟩, ⟨2005, 1, "historical"⟩,
        ⟨2006, 1, "historical"⟩, ⟨2007, 1, "historical"⟩, ⟨2008, 1, "historical"⟩,
        ⟨2009, 1, "historical"⟩, ⟨2010, 1, "forecast"⟩, ⟨2011, 1, "forecast"⟩,
        ⟨2012, 1, "forecast"⟩, ⟨2013, 1, "forecast"⟩,
        ⟨2014, 1, "forecast"⟩] : List TRow).filter
          (fun r => r.type == "historical") ≠ [] ∧
      (([⟨2003, 1, "historical"⟩, ⟨2004, 1, "historical"⟩, ⟨2005, 1, "historical"⟩,
        ⟨2006, 1, "historical"⟩, ⟨2007, 1, "historical"⟩, ⟨2008, 1, "historical"⟩,
        ⟨2009, 1, "historical"⟩, ⟨2010, 1, "forecast"⟩, ⟨2011, 1, "forecast"⟩,
        ⟨2012, 1, "forecast"⟩, ⟨2013, 1, "forecast"⟩,
        ⟨2014, 1, "forecast"⟩] : List TRow).filter
          (fun r => r.type == "forecast")).map (fun r => r.year) =
        (List.range 5).map (fun s : ℕ =>
          ((([⟨2003, 1, "historical"⟩, ⟨2004, 1, "historical"⟩, ⟨2005, 1, "historical"⟩,
            ⟨2006, 1, "historical"⟩, ⟨2007, 1, "historical"⟩, ⟨2008, 1, "historical"⟩,
            ⟨2009, 1, "historical"⟩, ⟨2010, 1, "forecast"⟩, ⟨2011, 1, "forecast"⟩,
            ⟨2012, 1, "forecast"⟩, ⟨2013, 1, "forecast"⟩,
            ⟨2014, 1, "forecast"⟩] : List TRow).filter
              (fun r => r.type == "historical")).map (fun r => r.year)).getLastD 0
            + 1 + (s : ℤ)) :=
  run_forecast_segments const_model zero_es demo_data "DE" "X" 5 _ _
    demo_run_eval (by decide)

/-- Fixed ten-point series for the feature-builder witness. -/
def series10 : List (ℤ × ℚ) :=
  [(2000, 3), (2001, 1), (2002, 4), (2003, 1), (2004, 5),
   (2005, 9), (2006, 2), (2007, 6), (2008, 5), (2009, 3)]

/-- C7 witness: the 10-point series has a 7-row supervised table and
lag1 of retained row 3 equals the raw value at series position 5. -/
theorem make_supervised_ten_witness :
    series10.length = 10 ∧ (make_supervised series10).length = 7 ∧
      ((make_supervised series10).getD 3 ⟨0, 0, 0, 0, 0, 0, 0⟩).lag1 =
        (series10.getD 5 (0, 0)).2 :=
  ⟨by decide, (make_supervised_ten series10 (by decide)).1,
    (make_supervised_ten series10 (by decide)).2 3 (by decide)⟩

end EurostatSpec
